import Mathlib

/-!
Verification of the orchestration core of the Canadian ER triage-agent
repository (`src/foundry_agents`).  The remote agent/thread/run platform is
modelled as an explicit state (`Platform`) threaded through the operations;
the behaviour of the remote side during one run (the polled run statuses and
the assistant replies) is an input (`Behavior`).  Remote-call side effects
are additionally recorded as an event trace (`Ev`) so that ordering and frame
properties of `Main.run` can be stated.

Remote-platform behaviour that the repository's code merely consumes
(message-append rejecting empty content, `create_and_process` polling until a
terminal status) is modelled from its documented contract, as stated in the
spec; everything the repository's own code does (sequencing, the lookup
logic, the per-evaluator try/except, what is returned) is translated
directly from `src/src/foundry_agents/main.py`.
-/

set_option autoImplicit false

/-- Run lifecycle states of the remote platform
(spec section 3, azure run states). -/
inductive RunStatus where
  | queued
  | inProgress
  | requiresAction
  | completed
  | failed
  | expired
  | cancelled
deriving DecidableEq, Repr

/-- Terminal states: completed, failed, expired, cancelled. -/
def RunStatus.isTerminal : RunStatus → Bool
  | .completed => true
  | .failed => true
  | .expired => true
  | .cancelled => true
  | _ => false

/-- Tool descriptor attached to an agent at creation time
(`ConnectedAgentTool` / `AzureAISearchTool` in `main.py`). -/
inductive ToolDesc where
  | connectedAgent (targetId : Nat) (targetName : String) (descr : String)
  | searchIndex (indexName : String) (topK : Nat)
deriving DecidableEq, Repr

/-- A remote agent: identifier, logical name and the tools it was created
with. -/
structure AgentRec where
  id : Nat
  name : String
  tools : List ToolDesc
deriving DecidableEq, Repr

/-- One message of a conversation thread.  `texts` models the message's
`text_messages` list; `createdAt` is the platform-side creation stamp. -/
structure Msg where
  threadId : Nat
  role : String
  texts : List String
  createdAt : Nat
deriving DecidableEq, Repr

/-- One run of an agent against a thread. -/
structure RunRec where
  id : Nat
  threadId : Nat
  agentId : Nat
  status : RunStatus
deriving DecidableEq, Repr

/-- The remote platform state: agents, threads, messages and runs, plus a
fresh-identifier counter. -/
structure Platform where
  agents : List AgentRec
  threads : List Nat
  msgs : List Msg
  runs : List RunRec
  nextId : Nat
deriving DecidableEq, Repr

/-- The empty platform. -/
def Platform.empty : Platform := ⟨[], [], [], [], 0⟩

/-- Append one message to a thread; the creation stamp is the current number
of stored messages, so stamps grow along the store. -/
def Platform.appendMsg (st : Platform) (tid : Nat) (role : String)
    (texts : List String) : Platform :=
  { st with msgs := st.msgs ++ [⟨tid, role, texts, st.msgs.length⟩] }

/-- Append the assistant's reply messages produced while a run is processed. -/
def Platform.addReplies (st : Platform) (tid : Nat) :
    List (List String) → Platform
  | [] => st
  | texts :: rest => (st.appendMsg tid "assistant" texts).addReplies tid rest

/-- Messages of one thread in stored (creation) order: the model of
`messages.list(thread_id, order=ListSortOrder.ASCENDING)`. -/
def Platform.listMessages (st : Platform) (tid : Nat) : List Msg :=
  st.msgs.filter (fun m => m.threadId == tid)

/-- Remote behaviour consumed by one `execute_agent` call: the run statuses
observed while `create_and_process` polls, and the reply messages the agent
appends to the thread. -/
structure Behavior where
  statusTrace : List RunStatus
  replies : List (List String)

/-- Events recorded for remote calls, used to state ordering and frame
properties of the driver. -/
inductive Ev where
  | listedAgents
  | searchToolInit
  | createdAgent (id : Nat) (name : String)
  | foundAgent (id : Nat) (name : String)
  | composedConnectedTool (targetId : Nat)
  | createdThread (id : Nat)
  | createdMessage
  | createdRun (id : Nat)
  | evaluated
deriving DecidableEq, Repr

/-- Outcome of `execute_agent`.  `messageRejected` models the platform
rejecting the message append (empty content, per the spec's contract for the
append step); `neverTerminal` marks the divergent case in which polling never
observes a terminal status, i.e. the Python call never returns. -/
inductive ExecResult where
  | ok (threadId : Nat) (runId : Nat)
  | messageRejected
  | neverTerminal
deriving DecidableEq, Repr

/-- The reserved left-bracket glyph U+3010 normalised by `execute_agent`. -/
def lbracketGlyph : Char := Char.ofNat 0x3010

/-- The reserved right-bracket glyph U+3011 normalised by `execute_agent`. -/
def rbracketGlyph : Char := Char.ofNat 0x3011

/-- Character-wise normalisation: U+3010 to ASCII left bracket and U+3011 to
ASCII right bracket, everything else unchanged. -/
def normalizeChar (c : Char) : Char :=
  if c = lbracketGlyph then '['
  else if c = rbracketGlyph then ']'
  else c

/-- Text normalisation, the model of
`text.replace("【", "[").replace("】", "]")` (both patterns are
single characters, so the two replaces act character-wise). -/
def normalizeText (s : String) : String :=
  String.mk (s.data.map normalizeChar)

/-- Whether a text still contains a reserved bracket glyph. -/
def hasGlyph (s : String) : Bool :=
  s.data.any (fun c => c == lbracketGlyph || c == rbracketGlyph)

/-- What the for-loop at the end of `execute_agent` logs: for each listed
message with a non-empty `text_messages`, the normalised text of its last
entry.  The loop only logs; nothing of this is returned. -/
def loggedTexts (msgs : List Msg) : List String :=
  msgs.filterMap (fun m => m.texts.getLast?.map normalizeText)

/-- Model of `Main.execute_agent`: create a thread, append the user message
(rejected by the platform when the content is empty), run
`create_and_process` — which creates the run, lets the agent append its
replies and polls the status trace until a terminal status — and return the
pair `(thread.id, run.id)`.  The final listing/logging loop has no effect on
state or result beyond the log, which `loggedTexts` reconstructs. -/
def execute_agent (st : Platform) (beh : Behavior) (agentId : Nat)
    (content : String) : ExecResult × Platform × List Ev :=
  let tid := st.nextId
  let st1 : Platform :=
    { st with threads := st.threads ++ [tid], nextId := st.nextId + 1 }
  if content = "" then
    (.messageRejected, st1, [.createdThread tid])
  else
    let st2 := st1.appendMsg tid "user" [content]
    let rid := st2.nextId
    let st3 := (Platform.addReplies { st2 with nextId := st2.nextId + 1 }
      tid beh.replies)
    match beh.statusTrace.find? RunStatus.isTerminal with
    | some s =>
        (.ok tid rid,
         { st3 with runs := st3.runs ++ [⟨rid, tid, agentId, s⟩] },
         [.createdThread tid, .createdMessage, .createdRun rid])
    | none =>
        (.neverTerminal,
         { st3 with runs := st3.runs ++ [⟨rid, tid, agentId, .inProgress⟩] },
         [.createdThread tid, .createdMessage, .createdRun rid])

/-- Python exception kinds relevant to `evaluate_agent_run`: the four
caught per evaluator, the four caught by the outer handler, the converter's
failure (an azure-core error, none of the caught classes) and a catch-all. -/
inductive PyExc where
  | valueError
  | typeError
  | keyError
  | attributeError
  | importError
  | connectionError
  | timeoutError
  | runtimeError
  | conversionError
  | other
deriving DecidableEq, Repr

/-- Exceptions caught by the per-evaluator `except` clause at
`main.py:175`. -/
def caughtByLoop : PyExc → Bool
  | .valueError => true
  | .typeError => true
  | .keyError => true
  | .attributeError => true
  | _ => false

/-- Exceptions caught (and swallowed) by the outer handlers at
`main.py:180-184`. -/
def caughtByOuter : PyExc → Bool
  | .importError => true
  | .connectionError => true
  | .timeoutError => true
  | .runtimeError => true
  | _ => false

/-- The converter's structured output, opaque to the harness. -/
structure EvalInput where
  payload : String
deriving DecidableEq, Repr

/-- One configured evaluator: a name and a callable that may raise. -/
abbrev EvaluatorMap : Type := List (String × (EvalInput → Except PyExc String))

/-- The evaluator loop of `evaluate_agent_run` (`main.py:169-176`): invoke
each evaluator in order; on success record `(name, result)`; on one of the
four caught exceptions log and continue with the next evaluator; any other
exception propagates. -/
def runEvaluators (input : EvalInput) : EvaluatorMap →
    Except PyExc (List (String × String))
  | [] => .ok []
  | (name, f) :: rest =>
    match f input with
    | .ok v => (runEvaluators input rest).map (fun r => (name, v) :: r)
    | .error e =>
        if caughtByLoop e then runEvaluators input rest else .error e

/-- Model of `Main.evaluate_agent_run`: convert, then run the evaluator
loop.  The outer `try` swallows `ImportError`, `ConnectionError`,
`TimeoutError` and `RuntimeError` (the function then just returns, result
`.ok none`); other exceptions propagate (`.error e`).  `.ok (some record)`
is the completed case, `record` being the `results` mapping the function
builds and logs — the Python function itself returns `None` either way. -/
def evaluate_agent_run (convertRes : Except PyExc EvalInput)
    (evaluators : EvaluatorMap) :
    Except PyExc (Option (List (String × String))) :=
  match convertRes with
  | .error e => if caughtByOuter e then .ok none else .error e
  | .ok input =>
    match runEvaluators input evaluators with
    | .ok record => .ok (some record)
    | .error e => if caughtByOuter e then .ok none else .error e

/-- Logical name of the conversation agent (`Main._conversation_agent_name`). -/
def conversation_agent_name : String := "CanadianERConversationAgent"

/-- Logical name of the triage agent (`Main._triage_agent_name`). -/
def triage_agent_name : String := "CanadianERTriageAgent"

/-- Logical name of the patient-history agent
(`Main._patient_history_agent_name`). -/
def patient_history_agent_name : String := "CanadianERPatientHistoryAgent"

/-- Name of the search index (`Main._search_idx_name`). -/
def search_idx_name : String := "idx-patient-data"

/-- Stage-level failures of one driver run (spec section 7). -/
inductive StageErr where
  | provisioning (name : String)
  | messageRejected
  | runNeverTerminal
  | evaluation (e : PyExc)
deriving DecidableEq, Repr

/-- Environment of one driver run: which create calls the remote side
rejects, the user prompt from configuration, the remote behaviour of the
execution step, and the conversion result and evaluators of the evaluation
step. -/
structure DriverEnv where
  createFails : String → Bool
  userPrompt : String
  beh : Behavior
  convertRes : Except PyExc EvalInput
  evaluators : EvaluatorMap

/-- Model of `Main.initialize_search_tool`: fetch the default search
connection and build the `AzureAISearchTool` descriptor with `top_k=3`. -/
def initialize_search_tool : ToolDesc × List Ev :=
  (.searchIndex search_idx_name 3, [.searchToolInit])

/-- Model of `Main.initialize_triage_agent`: look the name up in the given
listing (`next(...)` returns the first match); reuse the handle when found,
otherwise issue a create call, which the remote side may reject
(`ProvisioningError`). -/
def initialize_triage_agent (env : DriverEnv) (existing : List AgentRec)
    (st : Platform) : Except StageErr (AgentRec × Platform) × List Ev :=
  match existing.find? (fun a => a.name == triage_agent_name) with
  | some a => (.ok (a, st), [.foundAgent a.id a.name])
  | none =>
    if env.createFails triage_agent_name then
      (.error (.provisioning triage_agent_name), [])
    else
      let a : AgentRec := ⟨st.nextId, triage_agent_name, []⟩
      (.ok (a, { st with agents := st.agents ++ [a], nextId := st.nextId + 1 }),
       [.createdAgent a.id a.name])

/-- Model of `Main.initialize_patient_history_agent`: same lookup-or-create
logic, the create carrying the search tool's definitions. -/
def initialize_patient_history_agent (env : DriverEnv) (searchTool : ToolDesc)
    (existing : List AgentRec) (st : Platform) :
    Except StageErr (AgentRec × Platform) × List Ev :=
  match existing.find? (fun a => a.name == patient_history_agent_name) with
  | some a => (.ok (a, st), [.foundAgent a.id a.name])
  | none =>
    if env.createFails patient_history_agent_name then
      (.error (.provisioning patient_history_agent_name), [])
    else
      let a : AgentRec := ⟨st.nextId, patient_history_agent_name, [searchTool]⟩
      (.ok (a, { st with agents := st.agents ++ [a], nextId := st.nextId + 1 }),
       [.createdAgent a.id a.name])

/-- Model of `Main.initialize_conversation_agent`: lookup-or-create; in the
create branch two `ConnectedAgentTool` descriptors are composed from the
already-resolved triage and patient-history handles before the create call
is issued. -/
def initialize_conversation_agent (env : DriverEnv) (existing : List AgentRec)
    (st : Platform) (triage : AgentRec) (history : AgentRec) :
    Except StageErr (AgentRec × Platform) × List Ev :=
  match existing.find? (fun a => a.name == conversation_agent_name) with
  | some a => (.ok (a, st), [.foundAgent a.id a.name])
  | none =>
    let t1 : ToolDesc :=
      .connectedAgent triage.id triage.name "Triage the patient based on CTAS"
    let t2 : ToolDesc :=
      .connectedAgent history.id history.name "Retrieve patient history"
    if env.createFails conversation_agent_name then
      (.error (.provisioning conversation_agent_name),
       [.composedConnectedTool triage.id, .composedConnectedTool history.id])
    else
      let a : AgentRec := ⟨st.nextId, conversation_agent_name, [t1, t2]⟩
      (.ok (a, { st with agents := st.agents ++ [a], nextId := st.nextId + 1 }),
       [.composedConnectedTool triage.id, .composedConnectedTool history.id,
        .createdAgent a.id a.name])

/-- Model of `Main.run`: list the existing agents once, initialize the search
tool, provision the two leaf agents and then the conversation agent — all
three lookups against the one initial listing — then execute the
conversation agent with the configured user prompt and evaluate the run.
A stage failure aborts the run (the Python exception propagates). -/
def Main.run (env : DriverEnv) (st : Platform) :
    Except StageErr Unit × Platform × List Ev :=
  let existing := st.agents
  let (searchTool, trS) := initialize_search_tool
  let base := Ev.listedAgents :: trS
  match initialize_triage_agent env existing st with
  | (.error e, tr1) => (.error e, st, base ++ tr1)
  | (.ok (triage, st1), tr1) =>
    match initialize_patient_history_agent env searchTool existing st1 with
    | (.error e, tr2) => (.error e, st1, base ++ tr1 ++ tr2)
    | (.ok (history, st2), tr2) =>
      match initialize_conversation_agent env existing st2 triage history with
      | (.error e, tr3) => (.error e, st2, base ++ tr1 ++ tr2 ++ tr3)
      | (.ok (conv, st3), tr3) =>
        match execute_agent st3 env.beh conv.id env.userPrompt with
        | (.messageRejected, st4, tr4) =>
            (.error .messageRejected, st4, base ++ tr1 ++ tr2 ++ tr3 ++ tr4)
        | (.neverTerminal, st4, tr4) =>
            (.error .runNeverTerminal, st4, base ++ tr1 ++ tr2 ++ tr3 ++ tr4)
        | (.ok _ _, st4, tr4) =>
            let out : Except StageErr Unit :=
              match evaluate_agent_run env.convertRes env.evaluators with
              | .ok _ => .ok ()
              | .error e => .error (.evaluation e)
            (out, st4, base ++ tr1 ++ tr2 ++ tr3 ++ tr4 ++ [.evaluated])

/-- A constructed `AIProjectClient`, reduced to the endpoint it was given. -/
structure ClientRec where
  endpoint : String
deriving DecidableEq, Repr

/-- Python's `not endpoint` on the result of `os.getenv`: true for an unset
variable (`None`) and for the empty string. -/
def env_not_set : Option String → Bool
  | none => true
  | some s => s == ""

/-- Model of `Main.__init__` (`main.py:105-111`): read
`AZURE_AI_PROJECTS_ENDPOINT`, raise `ValueError` when it is unset or empty,
otherwise construct the client from it. -/
def Main.init (endpointVar : Option String) : Except String ClientRec :=
  if env_not_set endpointVar then
    .error "AZURE_AI_PROJECTS_ENDPOINT environment variable is required"
  else
    .ok ⟨endpointVar.getD ""⟩

/-- Model of `Evaluation.__init__` (`eval.py:23-29`), the same check. -/
def Evaluation.init (endpointVar : Option String) : Except String ClientRec :=
  if env_not_set endpointVar then
    .error "AZURE_AI_PROJECTS_ENDPOINT environment variable is required"
  else
    .ok ⟨endpointVar.getD ""⟩

/-- Model of `CloudEvaluation.__init__` (`cloud_eval.py:30-36`), the same
check. -/
def CloudEvaluation.init (endpointVar : Option String) :
    Except String ClientRec :=
  if env_not_set endpointVar then
    .error "AZURE_AI_PROJECTS_ENDPOINT environment variable is required"
  else
    .ok ⟨endpointVar.getD ""⟩

/-- Whether an `Except` result is a success. -/
def isOkResult {ε α : Type} : Except ε α → Bool
  | .ok _ => true
  | .error _ => false

/-- Creation stamps of a message list count up from `n`. -/
def stampsFrom : Nat → List Msg → Bool
  | _, [] => true
  | n, m :: rest => m.createdAt == n && stampsFrom (n + 1) rest

/-- Well-formed platform: the message store's creation stamps are exactly its
positions, which is what the append operation maintains. -/
def Platform.wfB (st : Platform) : Bool :=
  stampsFrom 0 st.msgs

/-- Trace check: every `composedConnectedTool` event references an agent id
already established (created or found) earlier in the trace, given the ids
established before the trace starts. -/
def composeOKB : List Nat → List Ev → Bool
  | _, [] => true
  | ids, .composedConnectedTool t :: tr => ids.contains t && composeOKB ids tr
  | ids, .createdAgent i _ :: tr => composeOKB (i :: ids) tr
  | ids, .foundAgent i _ :: tr => composeOKB (i :: ids) tr
  | ids, _ :: tr => composeOKB ids tr

/-- Agent ids established after processing a trace. -/
def idsAfter : List Nat → List Ev → List Nat
  | ids, [] => ids
  | ids, .createdAgent i _ :: tr => idsAfter (i :: ids) tr
  | ids, .foundAgent i _ :: tr => idsAfter (i :: ids) tr
  | ids, _ :: tr => idsAfter ids tr

/-- Trace check: any provisioning event for the conversation agent comes
after both leaf agents' names have been established. -/
def leavesFirstB : List String → List Ev → Bool
  | _, [] => true
  | nms, .createdAgent _ nm :: tr =>
      (nm != conversation_agent_name ||
        (nms.contains triage_agent_name &&
          nms.contains patient_history_agent_name)) &&
      leavesFirstB (nm :: nms) tr
  | nms, .foundAgent _ nm :: tr =>
      (nm != conversation_agent_name ||
        (nms.contains triage_agent_name &&
          nms.contains patient_history_agent_name)) &&
      leavesFirstB (nm :: nms) tr
  | nms, _ :: tr => leavesFirstB nms tr

/-- Agent names established after processing a trace. -/
def namesAfter : List String → List Ev → List String
  | nms, [] => nms
  | nms, .createdAgent _ nm :: tr => namesAfter (nm :: nms) tr
  | nms, .foundAgent _ nm :: tr => namesAfter (nm :: nms) tr
  | nms, _ :: tr => namesAfter nms tr

/-- Events belonging to the execution stage. -/
def Ev.isExecEv : Ev → Bool
  | .createdThread _ => true
  | .createdMessage => true
  | .createdRun _ => true
  | _ => false

/-- Events belonging to the composition stage. -/
def Ev.isComposeEv : Ev → Bool
  | .composedConnectedTool _ => true
  | _ => false

/-- Stage barrier: when a run aborts at some stage, the trace contains no
event of a later stage.  A provisioning failure admits no execution or
evaluation events (and, for a leaf agent, no composition events either); a
rejected message admits no run-creation or evaluation events; a run that
never terminates admits no evaluation event. -/
def barrierB : Except StageErr Unit → List Ev → Bool
  | .error (.provisioning nm), tr =>
      tr.all (fun e => !(e.isExecEv || e == .evaluated)) &&
      (nm == conversation_agent_name || tr.all (fun e => !e.isComposeEv))
  | .error .messageRejected, tr =>
      tr.all (fun e => !(e == .createdMessage || e == .evaluated) &&
        (match e with | .createdRun _ => false | _ => true))
  | .error .runNeverTerminal, tr => tr.all (fun e => e != .evaluated)
  | _, _ => true

/-- Number of agent-create calls recorded in a trace. -/
def countCreates (tr : List Ev) : Nat :=
  tr.countP (fun e => match e with | .createdAgent _ _ => true | _ => false)

/-- Whether an agent of the given name is in the listing. -/
def hasAgentNamed (l : List AgentRec) (nm : String) : Bool :=
  l.any (fun a => a.name == nm)

/-! Helper lemmas. -/

/-- Normalised text never contains a reserved bracket glyph. -/
theorem hasGlyph_normalizeText (s : String) : hasGlyph (normalizeText s) = false := by
  simp only [hasGlyph, normalizeText, List.any_map, List.any_eq_false, Function.comp]
  intro c _
  simp only [normalizeChar]
  split
  · decide
  · split
    · decide
    · rename_i h1 h2
      simp [bne, beq_eq_false_iff_ne, h1, h2]

/-- Every logged text is glyph-free, whatever the message list. -/
theorem loggedTexts_no_glyph (msgs : List Msg) :
    ∀ t ∈ loggedTexts msgs, hasGlyph t = false := by
  intro t ht
  rcases List.mem_filterMap.mp ht with ⟨m, _, hm⟩
  rcases Option.map_eq_some'.mp hm with ⟨s, _, rfl⟩
  exact hasGlyph_normalizeText s

/-- Stamps counting up from `n` bound every stamp below by `n`. -/
theorem stampsFrom_le {l : List Msg} {n : Nat} (h : stampsFrom n l = true) :
    ∀ m ∈ l, n ≤ m.createdAt := by
  induction l generalizing n with
  | nil => intro m hm; cases hm
  | cons x xs ih =>
    intro m hm
    rcases Bool.and_eq_true_iff.mp h with ⟨hx, hxs⟩
    rcases List.mem_cons.mp hm with rfl | hmem
    · exact Nat.le_of_eq (beq_iff_eq.mp hx).symm
    · exact Nat.le_of_succ_le (ih hxs m hmem)

/-- Stamps counting up yield a strictly increasing message list. -/
theorem stampsFrom_pairwise {l : List Msg} {n : Nat} (h : stampsFrom n l = true) :
    l.Pairwise (fun a b => a.createdAt < b.createdAt) := by
  induction l generalizing n with
  | nil => exact List.Pairwise.nil
  | cons x xs ih =>
    rcases Bool.and_eq_true_iff.mp h with ⟨hx, hxs⟩
    refine List.Pairwise.cons (fun b hb => ?_) (ih hxs)
    have h1 := stampsFrom_le hxs b hb
    have h2 : x.createdAt = n := beq_iff_eq.mp hx
    omega
    
/-- Appending a message stamped with the current length preserves counting
stamps. -/
theorem stampsFrom_append {l : List Msg} {n : Nat} (h : stampsFrom n l = true)
    (m : Msg) (hm : m.createdAt = n + l.length) : stampsFrom n (l ++ [m]) = true := by
  induction l generalizing n with
  | nil =>
    simp only [List.nil_append, stampsFrom, Bool.and_true]
    exact beq_iff_eq.mpr (by simpa using hm)
  | cons x xs ih =>
    rcases Bool.and_eq_true_iff.mp h with ⟨hx, hxs⟩
    simp only [List.cons_append, stampsFrom, Bool.and_eq_true]
    exact ⟨hx, ih hxs (by simp at hm ⊢; omega)⟩

/-- `appendMsg` preserves well-formedness of the platform. -/
theorem wfB_appendMsg {st : Platform} (h : st.wfB = true) (tid : Nat)
    (role : String) (texts : List String) :
    (st.appendMsg tid role texts).wfB = true := by
  simpa [Platform.appendMsg, Platform.wfB] using
    stampsFrom_append h ⟨tid, role, texts, st.msgs.length⟩ (by simp)

/-- `addReplies` preserves well-formedness of the platform. -/
theorem wfB_addReplies {st : Platform} (h : st.wfB = true) (tid : Nat)
    (replies : List (List String)) :
    (st.addReplies tid replies).wfB = true := by
  induction replies generalizing st with
  | nil => exact h
  | cons r rs ih => exact ih (wfB_appendMsg h tid "assistant" r)

/-- `addReplies` only appends to the message store. -/
theorem addReplies_eq (st : Platform) (tid : Nat) (replies : List (List String)) :
    ∃ l, st.addReplies tid replies = { st with msgs := st.msgs ++ l } := by
  induction replies generalizing st with
  | nil => exact ⟨[], by simp [Platform.addReplies]⟩
  | cons r rs ih =>
    rcases ih (st.appendMsg tid "assistant" r) with ⟨l, hl⟩
    exact ⟨⟨tid, "assistant", r, st.msgs.length⟩ :: l,
      by simp [Platform.addReplies, Platform.appendMsg] at hl ⊢; simpa using hl⟩

/-! Claim theorems. -/

/-- C4: for the empty-string input, `execute_agent` fails with the
message-rejection error at the append step and no Run (and no message) has
been created for the conversation — the state keeps its runs and messages,
only the fresh thread exists. -/
theorem executor_rejects_empty_content_before_run (st : Platform)
    (beh : Behavior) (agentId : Nat) :
    execute_agent st beh agentId "" =
      (.messageRejected,
       { st with threads := st.threads ++ [st.nextId], nextId := st.nextId + 1 },
       [.createdThread st.nextId]) := by
  simp [execute_agent]

/-- C5: when the converter fails with `ConversionError`, the evaluation
aborts with no record at all — no evaluator is invoked and the error
propagates to the caller (it is none of the exception kinds the outer
handlers catch), whatever evaluators are configured. -/
theorem conversion_failure_aborts_evaluation (evaluators : EvaluatorMap) :
    evaluate_agent_run (.error .conversionError) evaluators =
      .error .conversionError := by
  rfl

/-- C9: each of the three constructors (`Main`, `Evaluation`,
`CloudEvaluation`) raises `ValueError` exactly when the
`AZURE_AI_PROJECTS_ENDPOINT` variable is unset (`none`) or empty, and
succeeds otherwise; all three perform the identical check. -/
theorem endpoint_required_at_construction (e : Option String) :
    isOkResult (Main.init e) = !env_not_set e ∧
    Evaluation.init e = Main.init e ∧
    CloudEvaluation.init e = Main.init e ∧
    env_not_set e = decide (e = none ∨ e = some "") := by
  refine ⟨?_, rfl, rfl, ?_⟩
  · by_cases h : env_not_set e = true
    · simp [Main.init, h, isOkResult]
    · simp only [Bool.not_eq_true] at h
      simp [Main.init, h, isOkResult]
  · cases e with
    | none => rfl
    | some s =>
      by_cases h : s = ""
      · simp [env_not_set, h]
      · simp [env_not_set, h]

/-- Remote behaviour in which the run ends in the terminal state `failed`. -/
def behFailed : Behavior := ⟨[.inProgress, .failed], [["triage incomplete"]]⟩

/-- C2 counterexample: with the run reaching the terminal state `failed`,
`execute_agent` still returns the `(thread_id, run_id)` pair normally — the
stored run is `failed`, yet the result is `.ok`, not a `RunTerminatedError`
(no such error exists in the code). -/
theorem run_failed_yet_execute_returns_ids :
    (execute_agent Platform.empty behFailed 7 "chest pain").1 = .ok 0 1 ∧
    ((execute_agent Platform.empty behFailed 7 "chest pain").2.1.runs.map
      RunRec.status) = [.failed] := by
  decide

/-- C2 as amended: `execute_agent` never returns a result while the run is
non-terminal — whenever it returns `(thread_id, run_id)`, the stored run with
that id is in a terminal state; the empty-content case is rejected at the
append step, and when no terminal state is ever observed the call does not
return (the divergence marker). No terminal state makes it raise: the ids
are returned for `failed`, `expired` and `cancelled` alike. -/
theorem executor_returns_only_on_terminal_state (st : Platform)
    (beh : Behavior) (agentId : Nat) (content : String) :
    match (execute_agent st beh agentId content).1 with
    | .ok _ rid =>
        ∃ r ∈ (execute_agent st beh agentId content).2.1.runs,
          r.id = rid ∧ r.status.isTerminal = true
    | .messageRejected => content = ""
    | .neverTerminal =>
        beh.statusTrace.find? RunStatus.isTerminal = none := by
  by_cases hc : content = ""
  · simp [execute_agent, hc]
  · rcases hft : beh.statusTrace.find? RunStatus.isTerminal with _ | s
    · simp [execute_agent, hc, hft]
    · have hterm : RunStatus.isTerminal s = true := List.find?_some hft
      rcases addReplies_eq
        { st with
            threads := st.threads ++ [st.nextId],
            msgs := st.msgs ++ [⟨st.nextId, "user", [content], st.msgs.length⟩],
            nextId := st.nextId + 1 + 1 }
        st.nextId beh.replies with ⟨l, hl⟩
      simp only [execute_agent, if_neg hc, Platform.appendMsg, hft]
      refine ⟨⟨st.nextId + 1, st.nextId, agentId, s⟩, ?_, rfl, hterm⟩
      simp

/-- Remote behaviour: the run completes and the agent's reply contains a
reserved bracket glyph pair. -/
def behGlyph : Behavior := ⟨[.completed], [["CTAS【L2】 assessment"]]⟩

/-- C3 counterexample: for a completed run whose reply contains the reserved
glyphs, `execute_agent` returns the id pair `(0, 1)` — not the message
sequence — and the conversation's stored texts still contain the U+3010/U+3011
glyphs: normalization touches only the logged copies. -/
theorem execute_returns_ids_and_thread_keeps_glyphs :
    (execute_agent Platform.empty behGlyph 7 "hi").1 = .ok 0 1 ∧
    ((execute_agent Platform.empty behGlyph 7 "hi").2.1.listMessages 0).map
      Msg.texts = [["hi"], ["CTAS【L2】 assessment"]] ∧
    hasGlyph "CTAS【L2】 assessment" = true := by
  decide

/-- Executing an agent preserves platform well-formedness: every message it
appends is stamped with the store's length at append time. -/
theorem wfB_execute (st : Platform) (beh : Behavior) (agentId : Nat)
    (c : String) (h : st.wfB = true) :
    (execute_agent st beh agentId c).2.1.wfB = true := by
  by_cases hc : c = ""
  · simpa [execute_agent, hc, Platform.wfB] using h
  · have h1 : Platform.wfB
        { st with threads := st.threads ++ [st.nextId],
                  nextId := st.nextId + 1 } = true := h
    have h2 := wfB_appendMsg h1 st.nextId "user" [c]
    have h2b : Platform.wfB { Platform.appendMsg
        { st with threads := st.threads ++ [st.nextId],
                  nextId := st.nextId + 1 } st.nextId "user" [c] with
        nextId := st.nextId + 1 + 1 } = true := h2
    have h3 := wfB_addReplies h2b st.nextId beh.replies
    rcases hft : beh.statusTrace.find? RunStatus.isTerminal with _ | s <;>
      simp only [execute_agent, if_neg hc, hft] <;>
      exact h3

/-- C3 as amended: for every execution, the messages of the created
conversation are listed in ascending creation order, and no reserved bracket
glyph appears in any logged text (the loop normalizes the last text of each
message before logging it); the function's return value is the id pair, the
normalized texts exist only in the log. -/
theorem executor_log_ordered_and_glyph_free (st : Platform) (beh : Behavior)
    (agentId : Nat) (c : String) (h : st.wfB = true) :
    List.Pairwise (fun a b => a.createdAt < b.createdAt)
      ((execute_agent st beh agentId c).2.1.listMessages st.nextId) ∧
    ∀ t ∈ loggedTexts
      ((execute_agent st beh agentId c).2.1.listMessages st.nextId),
      hasGlyph t = false := by
  constructor
  · exact List.Pairwise.sublist (List.filter_sublist _)
      (stampsFrom_pairwise (wfB_execute st beh agentId c h))
  · exact loggedTexts_no_glyph _

/-- Witness for the amended C3 theorem at a concrete execution. -/
theorem executor_log_ordered_witness :
    List.Pairwise (fun a b => a.createdAt < b.createdAt)
      ((execute_agent Platform.empty behGlyph 7 "hi").2.1.listMessages 0) ∧
    ∀ t ∈ loggedTexts
      ((execute_agent Platform.empty behGlyph 7 "hi").2.1.listMessages 0),
      hasGlyph t = false :=
  executor_log_ordered_and_glyph_free Platform.empty behGlyph 7 "hi" (by decide)

/-- C8 counterexample: an invocation whose message append is rejected (empty
content) creates its Conversation but no Run — so "exactly one Run per
invocation" fails; only the thread exists afterwards. -/
theorem rejected_invocation_creates_no_run :
    (execute_agent Platform.empty behFailed 7 "").2.1.threads = [0] ∧
    (execute_agent Platform.empty behFailed 7 "").2.1.runs = [] := by
  decide

/-- C8 as amended: every invocation of `execute_agent` creates exactly one
Conversation; an invocation that proceeds past the append step creates
exactly one Run, while a rejected append leaves runs and messages untouched;
nothing is deleted and no other remote state (agents, prior threads, prior
messages, prior runs) is created, removed or modified. -/
theorem executor_effect_frame (st : Platform) (beh : Behavior)
    (agentId : Nat) (c : String) :
    (execute_agent st beh agentId c).2.1.agents = st.agents ∧
    (execute_agent st beh agentId c).2.1.threads = st.threads ++ [st.nextId] ∧
    (∃ l, (execute_agent st beh agentId c).2.1.msgs = st.msgs ++ l) ∧
    (match (execute_agent st beh agentId c).1 with
     | .messageRejected =>
         (execute_agent st beh agentId c).2.1.runs = st.runs ∧
         (execute_agent st beh agentId c).2.1.msgs = st.msgs
     | _ => ∃ r, (execute_agent st beh agentId c).2.1.runs = st.runs ++ [r]) := by
  by_cases hc : c = ""
  · simp [execute_agent, hc]
  · rcases addReplies_eq
      { st with
          threads := st.threads ++ [st.nextId],
          msgs := st.msgs ++ [⟨st.nextId, "user", [c], st.msgs.length⟩],
          nextId := st.nextId + 1 + 1 }
      st.nextId beh.replies with ⟨l, hl⟩
    rcases hft : beh.statusTrace.find? RunStatus.isTerminal with _ | s <;>
      simp only [execute_agent, if_neg hc, hft, Platform.appendMsg, hl] <;>
      exact ⟨trivial, trivial, ⟨⟨st.nextId, "user", [c], st.msgs.length⟩ :: l,
        by simp⟩, _, rfl⟩

/-- An evaluator invocation whose exception (if any) is of one of the four
kinds caught by the per-evaluator handler. -/
def exceptCaught : Except PyExc String → Bool
  | .ok _ => true
  | .error e => caughtByLoop e

/-- The entries the evaluator loop records: one `(name, result)` pair per
evaluator whose call returns, in configuration order. -/
def successfulResults (input : EvalInput) (evaluators : EvaluatorMap) :
    List (String × String) :=
  evaluators.filterMap (fun p =>
    match p.2 input with
    | .ok v => some (p.1, v)
    | .error _ => none)

/-- Names of the recorded entries come from the configured evaluators. -/
theorem successfulResults_names_subset (input : EvalInput)
    (evaluators : EvaluatorMap) :
    ∀ nm ∈ (successfulResults input evaluators).map Prod.fst,
      nm ∈ evaluators.map Prod.fst := by
  intro nm h
  rw [successfulResults, List.map_filterMap] at h
  rcases List.mem_filterMap.mp h with ⟨p, hp, hg⟩
  have hnm : nm = p.1 := by
    cases hq : p.2 input with
    | error e => simp [hq] at hg
    | ok v =>
      simp [hq] at hg
      exact hg.symm
  exact hnm ▸ List.mem_map.mpr ⟨p, hp, rfl⟩

/-- When every raised exception is of a caught kind, the loop completes and
records exactly the successful invocations, in order. -/
theorem runEvaluators_all_caught (input : EvalInput) (evs : EvaluatorMap)
    (h : ∀ p ∈ evs, exceptCaught (p.2 input) = true) :
    runEvaluators input evs = .ok (successfulResults input evs) := by
  induction evs with
  | nil => rfl
  | cons q rest ih =>
    have hrest : ∀ p ∈ rest, exceptCaught (p.2 input) = true :=
      fun p hp => h p (List.mem_cons_of_mem _ hp)
    cases hqe : q.2 input with
    | ok v => simp [runEvaluators, successfulResults, hqe, ih hrest,
        Except.map]
    | error e =>
      have hc : caughtByLoop e = true := by
        simpa [exceptCaught, hqe] using h q (List.mem_cons_self q rest)
      simp [runEvaluators, successfulResults, hqe, hc, ih hrest]

/-- Successes and failures partition the configured evaluators. -/
theorem successfulResults_length (input : EvalInput) (evs : EvaluatorMap) :
    (successfulResults input evs).length +
      evs.countP (fun p => !isOkResult (p.2 input)) = evs.length := by
  induction evs with
  | nil => rfl
  | cons q rest ih =>
    simp only [successfulResults, isOkResult] at ih ⊢
    cases hqe : q.2 input with
    | ok v =>
      simp [List.filterMap_cons, hqe, List.countP_cons] at ih ⊢
      omega
    | error e =>
      simp [List.filterMap_cons, hqe, List.countP_cons] at ih ⊢
      omega

/-- With distinct configured names, a failing evaluator's name is absent
from the recorded entries. -/
theorem successfulResults_failed_absent (input : EvalInput)
    (evs : EvaluatorMap) (hnodup : (evs.map Prod.fst).Nodup) :
    ∀ p ∈ evs, isOkResult (p.2 input) = false →
      p.1 ∉ (successfulResults input evs).map Prod.fst := by
  induction evs with
  | nil => intro p hp; cases hp
  | cons q rest ih =>
    rw [List.map_cons] at hnodup
    rcases List.nodup_cons.mp hnodup with ⟨hq, hrest⟩
    intro p hp hfail
    rcases List.mem_cons.mp hp with rfl | hp'
    · cases hqe : p.2 input with
      | ok v => simp [isOkResult, hqe] at hfail
      | error e =>
        simp only [successfulResults, List.filterMap_cons, hqe]
        intro hmem
        exact hq (successfulResults_names_subset input rest p.1
          (by simpa [successfulResults] using hmem))
    · have hpf : p.1 ∈ rest.map Prod.fst := List.mem_map.mpr ⟨p, hp', rfl⟩
      cases hqe : q.2 input with
      | ok v =>
        simp only [successfulResults, List.filterMap_cons, hqe, List.map_cons,
          List.mem_cons]
        rintro (h1 | h2)
        · exact hq (h1 ▸ hpf)
        · exact ih hrest p hp' hfail (by simpa [successfulResults] using h2)
      | error e =>
        simp only [successfulResults, List.filterMap_cons, hqe]
        exact fun hmem =>
          ih hrest p hp' hfail (by simpa [successfulResults] using hmem)

deriving instance DecidableEq for Except

/-- The three configured evaluators, the first designed to raise a caught
`KeyError`. -/
def cexEvaluators : EvaluatorMap :=
  [("IntentResolutionEvaluator", fun _ => .error .keyError),
   ("TaskAdherenceEvaluator", fun _ => .ok "pass"),
   ("ToolCallAccuracyEvaluator", fun _ => .ok "pass")]

/-- C1 counterexample: with N = 3 configured evaluators of which K = 1
raises a caught exception, the record built by `evaluate_agent_run` has 2
entries, not 3 — the failing evaluator's name is absent entirely instead of
appearing as an error entry. -/
theorem evaluation_record_misses_failed_evaluator :
    evaluate_agent_run (.ok ⟨"data"⟩) cexEvaluators =
      .ok (some [("TaskAdherenceEvaluator", "pass"),
                 ("ToolCallAccuracyEvaluator", "pass")]) ∧
    [("TaskAdherenceEvaluator", "pass"),
     ("ToolCallAccuracyEvaluator", "pass")].length = 2 ∧
    cexEvaluators.length = 3 ∧
    "IntentResolutionEvaluator" ∉
      ([("TaskAdherenceEvaluator", "pass"),
        ("ToolCallAccuracyEvaluator", "pass")].map Prod.fst) := by
  decide

/-- C1 as amended: for a successful conversion, with N configured evaluators
(distinct names) of which K raise caught exceptions, the loop completes and
the built record maps each of the N − K succeeding evaluators to its result,
in order; the K failing evaluators produce no entry at all (no
`EvaluatorError` values exist), so their names are absent from the record,
which is logged rather than returned. -/
theorem evaluation_record_partial_coverage (input : EvalInput)
    (evs : EvaluatorMap)
    (hcaught : ∀ p ∈ evs, exceptCaught (p.2 input) = true)
    (hnodup : (evs.map Prod.fst).Nodup) :
    evaluate_agent_run (.ok input) evs =
      .ok (some (successfulResults input evs)) ∧
    (successfulResults input evs).length +
      evs.countP (fun p => !isOkResult (p.2 input)) = evs.length ∧
    ∀ p ∈ evs, isOkResult (p.2 input) = false →
      p.1 ∉ (successfulResults input evs).map Prod.fst := by
  refine ⟨?_, successfulResults_length input evs,
    successfulResults_failed_absent input evs hnodup⟩
  simp [evaluate_agent_run, runEvaluators_all_caught input evs hcaught]

/-- Witness for the amended C1 theorem at the concrete evaluator map. -/
theorem evaluation_record_partial_coverage_witness :
    evaluate_agent_run (.ok ⟨"data"⟩) cexEvaluators =
      .ok (some (successfulResults ⟨"data"⟩ cexEvaluators)) ∧
    (successfulResults ⟨"data"⟩ cexEvaluators).length +
      cexEvaluators.countP (fun p => !isOkResult (p.2 ⟨"data"⟩)) =
        cexEvaluators.length ∧
    ∀ p ∈ cexEvaluators, isOkResult (p.2 ⟨"data"⟩) = false →
      p.1 ∉ (successfulResults ⟨"data"⟩ cexEvaluators).map Prod.fst :=
  evaluation_record_partial_coverage ⟨"data"⟩ cexEvaluators
    (by decide) (by decide)

/-- Find-first over an appended listing, when the prefix has no match. -/
theorem find?_append_of_none {α : Type} (p : α → Bool) (l₁ l₂ : List α)
    (h : l₁.find? p = none) : (l₁ ++ l₂).find? p = l₂.find? p := by
  rw [List.find?_append, h, Option.none_or]

/-- C6: the ensure operation is idempotent by name.  Whenever the first call
returns a handle (found or created), calling it again against the refreshed
listing returns the very same handle, leaves the platform untouched, and
performs no create call — its only remote interaction is the lookup that
finds the agent. -/
theorem registry_ensure_idempotent_by_name (env : DriverEnv) (st : Platform) :
    match initialize_triage_agent env st.agents st with
    | (.ok p, _) =>
        initialize_triage_agent env p.2.agents p.2 =
          (.ok p, [.foundAgent p.1.id p.1.name])
    | (.error _, _) => True := by
  rcases hf : st.agents.find? (fun a => a.name == triage_agent_name)
    with _ | a
  · by_cases hc : env.createFails triage_agent_name
    · simp [initialize_triage_agent, hf, hc]
    · simp only [initialize_triage_agent, hf, hc, Bool.false_eq_true,
        if_false, if_neg]
      have h2 : ((st.agents ++
          [(⟨st.nextId, triage_agent_name, []⟩ : AgentRec)]).find?
            (fun a => a.name == triage_agent_name)) =
          some ⟨st.nextId, triage_agent_name, []⟩ := by
        rw [find?_append_of_none _ _ _ hf]
        simp [List.find?]
      simp [h2]
  · have ha : a.name = triage_agent_name := by
      have := List.find?_some hf
      simpa using this
    simp [initialize_triage_agent, hf]

/-- `composeOKB` over a concatenation: check the first part, then the second
under the ids the first part establishes. -/
theorem composeOKB_append (ids : List Nat) (tr₁ tr₂ : List Ev) :
    composeOKB ids (tr₁ ++ tr₂) =
      (composeOKB ids tr₁ && composeOKB (idsAfter ids tr₁) tr₂) := by
  induction tr₁ generalizing ids with
  | nil => simp [composeOKB, idsAfter]
  | cons e tr ih =>
    cases e <;> simp [composeOKB, idsAfter, ih, Bool.and_assoc]

/-- `leavesFirstB` over a concatenation. -/
theorem leavesFirstB_append (nms : List String) (tr₁ tr₂ : List Ev) :
    leavesFirstB nms (tr₁ ++ tr₂) =
      (leavesFirstB nms tr₁ && leavesFirstB (namesAfter nms tr₁) tr₂) := by
  induction tr₁ generalizing nms with
  | nil => simp [leavesFirstB, namesAfter]
  | cons e tr ih =>
    cases e <;> simp [leavesFirstB, namesAfter, ih, Bool.and_assoc]

/-- `countCreates` over a concatenation. -/
theorem countCreates_append (tr₁ tr₂ : List Ev) :
    countCreates (tr₁ ++ tr₂) = countCreates tr₁ + countCreates tr₂ :=
  List.countP_append _ _ _

/-- Inversion of a failed triage provisioning. -/
theorem initialize_triage_agent_error {env : DriverEnv}
    {existing : List AgentRec} {st : Platform} {e : StageErr} {tr : List Ev}
    (h : initialize_triage_agent env existing st = (.error e, tr)) :
    e = .provisioning triage_agent_name ∧ tr = [] ∧
    existing.find? (fun a => a.name == triage_agent_name) = none ∧
    env.createFails triage_agent_name = true := by
  unfold initialize_triage_agent at h
  rcases hf : existing.find? (fun a => a.name == triage_agent_name) with _ | a <;>
    rw [hf] at h
  · by_cases hc : env.createFails triage_agent_name <;> simp [hc] at h
    exact ⟨h.1.symm, h.2, hf, hc⟩
  · simp at h

/-- Inversion of a successful triage provisioning. -/
theorem initialize_triage_agent_ok {env : DriverEnv}
    {existing : List AgentRec} {st : Platform} {a : AgentRec} {st' : Platform}
    {tr : List Ev}
    (h : initialize_triage_agent env existing st = (.ok (a, st'), tr)) :
    a.name = triage_agent_name ∧
    ((tr = [.foundAgent a.id a.name] ∧ st' = st ∧
        existing.find? (fun x => x.name == triage_agent_name) = some a) ∨
     (tr = [.createdAgent a.id a.name] ∧
        st' = { st with agents := st.agents ++ [a],
                        nextId := st.nextId + 1 } ∧
        existing.find? (fun x => x.name == triage_agent_name) = none)) := by
  unfold initialize_triage_agent at h
  rcases hf : existing.find? (fun x => x.name == triage_agent_name) with _ | b <;>
    rw [hf] at h
  · by_cases hc : env.createFails triage_agent_name <;> simp [hc] at h
    rcases h with ⟨⟨ha, hst⟩, htr⟩
    subst ha
    subst hst
    subst htr
    exact ⟨rfl, Or.inr ⟨rfl, rfl, hf⟩⟩
  · simp at h
    have hb : (b.name == triage_agent_name) = true := by
      simpa using List.find?_some hf
    rcases h with ⟨⟨ha, hst⟩, htr⟩
    subst ha
    subst hst
    subst htr
    exact ⟨eq_of_beq hb, Or.inl ⟨rfl, rfl, hf⟩⟩

/-- Inversion of a failed patient-history provisioning. -/
theorem initialize_patient_history_agent_error {env : DriverEnv}
    {tool : ToolDesc} {existing : List AgentRec} {st : Platform}
    {e : StageErr} {tr : List Ev}
    (h : initialize_patient_history_agent env tool existing st =
      (.error e, tr)) :
    e = .provisioning patient_history_agent_name ∧ tr = [] ∧
    existing.find? (fun a => a.name == patient_history_agent_name) = none ∧
    env.createFails patient_history_agent_name = true := by
  unfold initialize_patient_history_agent at h
  rcases hf : existing.find? (fun a => a.name == patient_history_agent_name)
    with _ | a <;> rw [hf] at h
  · by_cases hc : env.createFails patient_history_agent_name <;>
      simp [hc] at h
    exact ⟨h.1.symm, h.2, hf, hc⟩
  · simp at h

/-- Inversion of a successful patient-history provisioning. -/
theorem initialize_patient_history_agent_ok {env : DriverEnv}
    {tool : ToolDesc} {existing : List AgentRec} {st : Platform}
    {a : AgentRec} {st' : Platform} {tr : List Ev}
    (h : initialize_patient_history_agent env tool existing st =
      (.ok (a, st'), tr)) :
    a.name = patient_history_agent_name ∧
    ((tr = [.foundAgent a.id a.name] ∧ st' = st ∧
        existing.find? (fun x => x.name == patient_history_agent_name) =
          some a) ∨
     (tr = [.createdAgent a.id a.name] ∧
        st' = { st with agents := st.agents ++ [a],
                        nextId := st.nextId + 1 } ∧
        existing.find? (fun x => x.name == patient_history_agent_name) =
          none)) := by
  unfold initialize_patient_history_agent at h
  rcases hf : existing.find? (fun x => x.name == patient_history_agent_name)
    with _ | b <;> rw [hf] at h
  · by_cases hc : env.createFails patient_history_agent_name <;>
      simp [hc] at h
    rcases h with ⟨⟨ha, hst⟩, htr⟩
    subst ha
    subst hst
    subst htr
    exact ⟨rfl, Or.inr ⟨rfl, rfl, hf⟩⟩
  · simp at h
    have hb : (b.name == patient_history_agent_name) = true := by
      simpa using List.find?_some hf
    rcases h with ⟨⟨ha, hst⟩, htr⟩
    subst ha
    subst hst
    subst htr
    exact ⟨eq_of_beq hb, Or.inl ⟨rfl, rfl, hf⟩⟩

/-- Inversion of a failed conversation-agent provisioning: the two connected
tools were composed from the given handles before the create call failed. -/
theorem initialize_conversation_agent_error {env : DriverEnv}
    {existing : List AgentRec} {st : Platform} {tri his : AgentRec}
    {e : StageErr} {tr : List Ev}
    (h : initialize_conversation_agent env existing st tri his =
      (.error e, tr)) :
    e = .provisioning conversation_agent_name ∧
    tr = [.composedConnectedTool tri.id, .composedConnectedTool his.id] ∧
    existing.find? (fun a => a.name == conversation_agent_name) = none ∧
    env.createFails conversation_agent_name = true := by
  unfold initialize_conversation_agent at h
  rcases hf : existing.find? (fun a => a.name == conversation_agent_name)
    with _ | a <;> rw [hf] at h
  · by_cases hc : env.createFails conversation_agent_name <;> simp [hc] at h
    exact ⟨h.1.symm, h.2.symm, hf, hc⟩
  · simp at h

/-- Inversion of a successful conversation-agent provisioning. -/
theorem initialize_conversation_agent_ok {env : DriverEnv}
    {existing : List AgentRec} {st : Platform} {tri his : AgentRec}
    {a : AgentRec} {st' : Platform} {tr : List Ev}
    (h : initialize_conversation_agent env existing st tri his =
      (.ok (a, st'), tr)) :
    a.name = conversation_agent_name ∧
    ((tr = [.foundAgent a.id a.name] ∧ st' = st ∧
        existing.find? (fun x => x.name == conversation_agent_name) =
          some a) ∨
     (tr = [.composedConnectedTool tri.id, .composedConnectedTool his.id,
            .createdAgent a.id a.name] ∧
        st' = { st with agents := st.agents ++ [a],
                        nextId := st.nextId + 1 } ∧
        existing.find? (fun x => x.name == conversation_agent_name) =
          none)) := by
  unfold initialize_conversation_agent at h
  rcases hf : existing.find? (fun x => x.name == conversation_agent_name)
    with _ | b <;> rw [hf] at h
  · by_cases hc : env.createFails conversation_agent_name <;> simp [hc] at h
    rcases h with ⟨⟨ha, hst⟩, htr⟩
    subst ha
    subst hst
    subst htr
    exact ⟨rfl, Or.inr ⟨rfl, rfl, hf⟩⟩
  · simp at h
    have hb : (b.name == conversation_agent_name) = true := by
      simpa using List.find?_some hf
    rcases h with ⟨⟨ha, hst⟩, htr⟩
    subst ha
    subst hst
    subst htr
    exact ⟨eq_of_beq hb, Or.inl ⟨rfl, rfl, hf⟩⟩

/-- Shape of the execution-stage trace, by result. -/
theorem execute_agent_trace (st : Platform) (beh : Behavior) (agentId : Nat)
    (c : String) :
    match (execute_agent st beh agentId c).1 with
    | .messageRejected =>
        (execute_agent st beh agentId c).2.2 = [.createdThread st.nextId]
    | _ =>
        (execute_agent st beh agentId c).2.2 =
          [.createdThread st.nextId, .createdMessage,
           .createdRun (st.nextId + 1)] := by
  by_cases hc : c = ""
  · simp [execute_agent, hc]
  · rcases hft : beh.statusTrace.find? RunStatus.isTerminal with _ | s <;>
      simp [execute_agent, hc, hft, Platform.appendMsg]

/-- Execution never touches the agent listing. -/
theorem execute_agent_agents (st : Platform) (beh : Behavior) (agentId : Nat)
    (c : String) :
    (execute_agent st beh agentId c).2.1.agents = st.agents := by
  by_cases hc : c = ""
  · simp [execute_agent, hc]
  · rcases addReplies_eq
      { st with
          threads := st.threads ++ [st.nextId],
          msgs := st.msgs ++ [⟨st.nextId, "user", [c], st.msgs.length⟩],
          nextId := st.nextId + 1 + 1 }
      st.nextId beh.replies with ⟨l, hl⟩
    rcases hft : beh.statusTrace.find? RunStatus.isTerminal with _ | s <;>
      simp [execute_agent, hc, hft, Platform.appendMsg, hl]

/-- C7: driver dependency ordering.  In every driver run's remote-call
trace, each connected-agent tool descriptor is composed only after the
referenced agent's handle exists, any provisioning of the composite
conversation agent happens only after both leaf agents are provisioned, and
a stage failure admits no events of any later stage (hard barriers). -/
theorem driver_dependency_ordering (env : DriverEnv) (st : Platform) :
    composeOKB [] (Main.run env st).2.2 = true ∧
    leavesFirstB [] (Main.run env st).2.2 = true ∧
    barrierB (Main.run env st).1 (Main.run env st).2.2 = true := by
  have hb1 : (triage_agent_name == conversation_agent_name) = false := by
    decide
  have hb2 : (patient_history_agent_name == conversation_agent_name) =
      false := by decide
  have hn1 : (triage_agent_name != conversation_agent_name) = true := by
    decide
  have hn2 : (patient_history_agent_name != conversation_agent_name) =
      true := by decide
  have hn3 : (conversation_agent_name != conversation_agent_name) = false := by
    decide
  have hm1 : ([patient_history_agent_name,
      triage_agent_name].contains triage_agent_name) = true := by decide
  have hm2 : ([patient_history_agent_name,
      triage_agent_name].contains patient_history_agent_name) = true := by
    decide
  simp only [Main.run, initialize_search_tool]
  rcases h1 : initialize_triage_agent env st.agents st with ⟨e1 | ⟨a1, st1⟩, tr1⟩
  · rcases initialize_triage_agent_error h1 with ⟨he, htr, -, -⟩
    subst he
    subst htr
    simp [composeOKB, leavesFirstB, barrierB, Ev.isExecEv, Ev.isComposeEv, hb1]
  · obtain ⟨ha1, hsh1⟩ := initialize_triage_agent_ok h1
    rcases h2 : initialize_patient_history_agent env
        (.searchIndex search_idx_name 3) st.agents st1 with ⟨e2 | ⟨a2, st2⟩, tr2⟩
    · rcases initialize_patient_history_agent_error h2 with ⟨he, htr, -, -⟩
      subst he
      subst htr
      rcases hsh1 with ⟨htr1, -, -⟩ | ⟨htr1, -, -⟩ <;> subst htr1 <;>
        simp [h2, composeOKB_append, leavesFirstB_append, composeOKB,
          leavesFirstB, idsAfter, namesAfter, barrierB, Ev.isExecEv,
          Ev.isComposeEv, List.all_append, hb2, ha1, hn1]
    · obtain ⟨ha2, hsh2⟩ := initialize_patient_history_agent_ok h2
      rcases h3 : initialize_conversation_agent env st.agents st2 a1 a2
        with ⟨e3 | ⟨a3, st3⟩, tr3⟩
      · rcases initialize_conversation_agent_error h3 with ⟨he, htr, -, -⟩
        subst he
        subst htr
        rcases hsh1 with ⟨htr1, -, -⟩ | ⟨htr1, -, -⟩ <;>
          rcases hsh2 with ⟨htr2, -, -⟩ | ⟨htr2, -, -⟩ <;>
          subst htr1 <;> subst htr2 <;>
          simp [h2, h3, composeOKB_append, leavesFirstB_append, composeOKB,
            leavesFirstB, idsAfter, namesAfter, barrierB, Ev.isExecEv,
            Ev.isComposeEv, List.all_append, ha1, ha2, hn1, hn2, hm1, hm2]
      · obtain ⟨ha3, hsh3⟩ := initialize_conversation_agent_ok h3
        rcases h4 : execute_agent st3 env.beh a3.id env.userPrompt
          with ⟨res, st4, tr4⟩
        have htr4 := execute_agent_trace st3 env.beh a3.id env.userPrompt
        rw [h4] at htr4
        cases res with
        | messageRejected =>
          simp only at htr4
          subst htr4
          rcases hsh1 with ⟨htr1, -, -⟩ | ⟨htr1, -, -⟩ <;>
            rcases hsh2 with ⟨htr2, -, -⟩ | ⟨htr2, -, -⟩ <;>
            rcases hsh3 with ⟨htr3, -, -⟩ | ⟨htr3, -, -⟩ <;>
            subst htr1 <;> subst htr2 <;> subst htr3 <;>
            simp [h2, h3, h4, composeOKB_append, leavesFirstB_append,
              composeOKB, leavesFirstB, idsAfter, namesAfter, barrierB,
              Ev.isExecEv, Ev.isComposeEv, List.all_append, ha1, ha2, ha3,
              hn1, hn2, hn3, hm1, hm2]
        | neverTerminal =>
          simp only at htr4
          subst htr4
          rcases hsh1 with ⟨htr1, -, -⟩ | ⟨htr1, -, -⟩ <;>
            rcases hsh2 with ⟨htr2, -, -⟩ | ⟨htr2, -, -⟩ <;>
            rcases hsh3 with ⟨htr3, -, -⟩ | ⟨htr3, -, -⟩ <;>
            subst htr1 <;> subst htr2 <;> subst htr3 <;>
            simp [h2, h3, h4, composeOKB_append, leavesFirstB_append,
              composeOKB, leavesFirstB, idsAfter, namesAfter, barrierB,
              Ev.isExecEv, Ev.isComposeEv, List.all_append, ha1, ha2, ha3,
              hn1, hn2, hn3, hm1, hm2]
        | ok tid rid =>
          simp only at htr4
          subst htr4
          rcases he : evaluate_agent_run env.convertRes env.evaluators
            with e5 | r5 <;>
            rcases hsh1 with ⟨htr1, -, -⟩ | ⟨htr1, -, -⟩ <;>
            rcases hsh2 with ⟨htr2, -, -⟩ | ⟨htr2, -, -⟩ <;>
            rcases hsh3 with ⟨htr3, -, -⟩ | ⟨htr3, -, -⟩ <;>
            subst htr1 <;> subst htr2 <;> subst htr3 <;>
            simp [h2, h3, h4, he, composeOKB_append, leavesFirstB_append,
              composeOKB, leavesFirstB, idsAfter, namesAfter, barrierB,
              Ev.isExecEv, Ev.isComposeEv, List.all_append, ha1, ha2, ha3,
              hn1, hn2, hn3, hm1, hm2]

/-- Number of agent-listing events in a trace. -/
def countListed (tr : List Ev) : Nat :=
  tr.countP (fun e => match e with | .listedAgents => true | _ => false)

/-- `countListed` over a concatenation. -/
theorem countListed_append (tr₁ tr₂ : List Ev) :
    countListed (tr₁ ++ tr₂) = countListed tr₁ + countListed tr₂ :=
  List.countP_append _ _ _

/-- A successful by-name lookup means the listing has the name. -/
theorem hasAgentNamed_of_find?_some {l : List AgentRec} {nm : String}
    {a : AgentRec} (h : l.find? (fun x => x.name == nm) = some a) :
    hasAgentNamed l nm = true :=
  List.any_eq_true.mpr ⟨a, List.mem_of_find?_eq_some h,
    by simpa using List.find?_some h⟩

/-- A failed by-name lookup means the listing lacks the name. -/
theorem hasAgentNamed_of_find?_none {l : List AgentRec} {nm : String}
    (h : l.find? (fun x => x.name == nm) = none) :
    hasAgentNamed l nm = false :=
  List.any_eq_false.mpr (List.find?_eq_none.mp h)

/-- `hasAgentNamed` over an appended listing. -/
theorem hasAgentNamed_append (l₁ l₂ : List AgentRec) (nm : String) :
    hasAgentNamed (l₁ ++ l₂) nm =
      (hasAgentNamed l₁ nm || hasAgentNamed l₂ nm) :=
  List.any_append

/-- A singleton listing resolves a lookup for its agent's name. -/
theorem find?_name_singleton (a : AgentRec) (nm : String) (h : a.name = nm) :
    [a].find? (fun x => x.name == nm) = some a := by
  simp [List.find?, h]

/-- The by-name membership test agrees with the by-name lookup. -/
theorem hasAgentNamed_eq_find? (l : List AgentRec) (nm : String) :
    hasAgentNamed l nm = (l.find? (fun x => x.name == nm)).isSome := by
  rcases h : l.find? (fun x => x.name == nm) with _ | a
  · rw [hasAgentNamed_of_find?_none h, h]
    rfl
  · rw [hasAgentNamed_of_find?_some h, h]
    rfl

/-- Snapshot behaviour of one driver run with a remote side that accepts all
create calls: the agent listing is taken exactly once, first; the number of
create calls equals the number of the three logical names absent from the
initial listing (each lookup consults the initial snapshot only); and after
the run all three names resolve in the listing. -/
theorem run_snapshot_spec (env : DriverEnv) (st : Platform)
    (hnf : ∀ nm, env.createFails nm = false) :
    (Main.run env st).2.2.head? = some .listedAgents ∧
    countListed (Main.run env st).2.2 = 1 ∧
    countCreates (Main.run env st).2.2 =
      ((if (st.agents.find?
            (fun x => x.name == triage_agent_name)).isSome then 0 else 1) +
       (if (st.agents.find?
            (fun x => x.name == patient_history_agent_name)).isSome
        then 0 else 1) +
       (if (st.agents.find?
            (fun x => x.name == conversation_agent_name)).isSome
        then 0 else 1)) ∧
    ((Main.run env st).2.1.agents.find?
      (fun x => x.name == triage_agent_name)).isSome = true ∧
    ((Main.run env st).2.1.agents.find?
      (fun x => x.name == patient_history_agent_name)).isSome = true ∧
    ((Main.run env st).2.1.agents.find?
      (fun x => x.name == conversation_agent_name)).isSome = true := by
  have hb1 : (triage_agent_name == patient_history_agent_name) = false := by
    decide
  have hb2 : (triage_agent_name == conversation_agent_name) = false := by
    decide
  have hb3 : (patient_history_agent_name == triage_agent_name) = false := by
    decide
  have hb4 : (patient_history_agent_name == conversation_agent_name) =
      false := by decide
  have hb5 : (conversation_agent_name == triage_agent_name) = false := by
    decide
  have hb6 : (conversation_agent_name == patient_history_agent_name) =
      false := by decide
  simp only [Main.run, initialize_search_tool]
  rcases h1 : initialize_triage_agent env st.agents st with ⟨e1 | ⟨a1, st1⟩, tr1⟩
  · rcases initialize_triage_agent_error h1 with ⟨-, -, -, hcf⟩
    exact absurd hcf (by simp [hnf])
  · obtain ⟨ha1, hsh1⟩ := initialize_triage_agent_ok h1
    rcases h2 : initialize_patient_history_agent env
        (.searchIndex search_idx_name 3) st.agents st1 with ⟨e2 | ⟨a2, st2⟩, tr2⟩
    · rcases initialize_patient_history_agent_error h2 with ⟨-, -, -, hcf⟩
      exact absurd hcf (by simp [hnf])
    · obtain ⟨ha2, hsh2⟩ := initialize_patient_history_agent_ok h2
      rcases h3 : initialize_conversation_agent env st.agents st2 a1 a2
        with ⟨e3 | ⟨a3, st3⟩, tr3⟩
      · rcases initialize_conversation_agent_error h3 with ⟨-, -, -, hcf⟩
        exact absurd hcf (by simp [hnf])
      · obtain ⟨ha3, hsh3⟩ := initialize_conversation_agent_ok h3
        rcases h4 : execute_agent st3 env.beh a3.id env.userPrompt
          with ⟨res, st4, tr4⟩
        have hag4 : st4.agents = st3.agents := by
          have hx := execute_agent_agents st3 env.beh a3.id env.userPrompt
          rw [h4] at hx
          exact hx
        have htr4 := execute_agent_trace st3 env.beh a3.id env.userPrompt
        rw [h4] at htr4
        cases res with
        | messageRejected =>
          simp only at htr4
          subst htr4
          rcases hsh1 with ⟨htr1, hq1, hfd1⟩ | ⟨htr1, hq1, hfd1⟩ <;>
            rcases hsh2 with ⟨htr2, hq2, hfd2⟩ | ⟨htr2, hq2, hfd2⟩ <;>
            rcases hsh3 with ⟨htr3, hq3, hfd3⟩ | ⟨htr3, hq3, hfd3⟩ <;>
            subst_vars <;>
            simp only [h2] <;> simp only [h3] <;> simp only [h4] <;>
            simp [countListed_append, countListed, countCreates,
              countCreates_append, List.countP_cons, List.countP_append,
              hag4, hfd1, hfd2, hfd3, List.find?_append, find?_name_singleton,
              ha1, ha2, ha3, hb1, hb2, hb3, hb4, hb5, hb6]
        | neverTerminal =>
          simp only at htr4
          subst htr4
          rcases hsh1 with ⟨htr1, hq1, hfd1⟩ | ⟨htr1, hq1, hfd1⟩ <;>
            rcases hsh2 with ⟨htr2, hq2, hfd2⟩ | ⟨htr2, hq2, hfd2⟩ <;>
            rcases hsh3 with ⟨htr3, hq3, hfd3⟩ | ⟨htr3, hq3, hfd3⟩ <;>
            subst_vars <;>
            simp only [h2] <;> simp only [h3] <;> simp only [h4] <;>
            simp [countListed_append, countListed, countCreates,
              countCreates_append, List.countP_cons, List.countP_append,
              hag4, hfd1, hfd2, hfd3, List.find?_append, find?_name_singleton,
              ha1, ha2, ha3, hb1, hb2, hb3, hb4, hb5, hb6]
        | ok tid rid =>
          simp only at htr4
          subst htr4
          rcases he : evaluate_agent_run env.convertRes env.evaluators
            with e5 | r5 <;>
            rcases hsh1 with ⟨htr1, hq1, hfd1⟩ | ⟨htr1, hq1, hfd1⟩ <;>
            rcases hsh2 with ⟨htr2, hq2, hfd2⟩ | ⟨htr2, hq2, hfd2⟩ <;>
            rcases hsh3 with ⟨htr3, hq3, hfd3⟩ | ⟨htr3, hq3, hfd3⟩ <;>
            subst_vars <;>
            simp only [h2, h3, h4] <;>
            simp [countListed_append, countListed, countCreates,
              countCreates_append, List.countP_cons, List.countP_append,
              hag4, hfd1, hfd2, hfd3, List.find?_append, find?_name_singleton,
              ha1, ha2, ha3, hb1, hb2, hb3, hb4, hb5, hb6]

/-- C10: single pre-provisioning snapshot.  With a remote side that accepts
creates, the driver lists the agents exactly once, as its first remote call;
which agents get created is decided entirely by that initial listing — one
create per logical name absent from it, regardless of what the run itself
creates (a later lookup never observes an agent created earlier in the same
run, the three names being distinct) — and a second driver run performs no
create calls at all: reuse-by-name takes effect only on the next run. -/
theorem driver_single_snapshot (env : DriverEnv) (st : Platform) :
    (Main.run { env with createFails := fun _ => false } st).2.2.head? =
      some .listedAgents ∧
    countListed
      (Main.run { env with createFails := fun _ => false } st).2.2 = 1 ∧
    countCreates
      (Main.run { env with createFails := fun _ => false } st).2.2 =
      ((if hasAgentNamed st.agents triage_agent_name then 0 else 1) +
       (if hasAgentNamed st.agents patient_history_agent_name then 0 else 1) +
       (if hasAgentNamed st.agents conversation_agent_name then 0 else 1)) ∧
    countCreates
      (Main.run { env with createFails := fun _ => false }
        (Main.run { env with createFails := fun _ => false } st).2.1).2.2 =
      0 := by
  have hnf : ∀ nm, ({ env with createFails := fun _ => false } :
      DriverEnv).createFails nm = false := fun _ => rfl
  obtain ⟨hh, hl, hc, ht, hp, hv⟩ := run_snapshot_spec _ st hnf
  refine ⟨hh, hl, ?_, ?_⟩
  · rw [hc, hasAgentNamed_eq_find?, hasAgentNamed_eq_find?,
      hasAgentNamed_eq_find?]
  · obtain ⟨-, -, hc2, -, -, -⟩ := run_snapshot_spec _
      ((Main.run { env with createFails := fun _ => false } st).2.1) hnf
    rw [hc2, ht, hp, hv]
    simp
